import Mathlib

/-!
Shallow embedding of the mobile vehicle-detector pipeline
(`src/app/src/components/VehicleDetector.tsx` and the camera variant in
`src/unnamed/part_000`): the in-memory log, the RGBA-to-RGB channel
reduction loop, the detection post-processing stage (score thresholding
and labeling over the fixed 25 detection slots), and the model-loaded
guard at the pipeline entry point.

JavaScript semantics embedded explicitly:
* `Uint8Array` cells are bytes (`Fin 256`); an out-of-bounds write to a
  typed array is silently dropped (modelled by `List.set`, which is the
  identity past the end), and an out-of-bounds read yields `undefined`,
  which coerces to 0 when stored into a typed array cell (modelled by
  `List.getD _ _ 0`).
* `scores[i]` past the end of the array is `undefined`; `Number(undefined)`
  is NaN, and `NaN > t` is false for every `t`.  This is modelled by
  `List.get?` returning `none` with the comparison yielding `false` on
  `none`.
* Scores and the threshold are modelled as rationals; the source compares
  them only with `>` on finite values.
-/

namespace Vegha

/-- One `addLog(msg)` call: prepends a single timestamped entry to the
in-memory log list (`setLogs(prev => [entry, ...prev])`).  The wall-clock
string produced by `new Date().toLocaleTimeString()` is passed in as
`now`. -/
def addLog (now msg : String) (prev : List String) : List String :=
  ("[" ++ now ++ "] " ++ msg) :: prev

/-- An unsigned 8-bit sample, as stored in a `Uint8Array`. -/
abbrev Byte := Fin 256

/-- Length of the channel-reduced output buffer: `new Uint8Array(320 * 320 * 3)`. -/
def CHW : Nat := 320 * 320 * 3

/-- Reading `rgba[i]` from a `Uint8Array` as the value stored into a byte
cell: in range it is the byte itself; out of range it is `undefined`,
which coerces to 0 on store. -/
def readByte (a : List Byte) (i : Nat) : Byte := a.getD i 0

/-- One iteration of the strip-alpha loop (loop variable `i = 4*k`,
write pointer `p = 3*k`):
`rgb[p++] = rgba[i]; rgb[p++] = rgba[i+1]; rgb[p++] = rgba[i+2];`
the alpha sample at `4*k+3` is skipped.  `List.set` is the identity past
the end of the list, exactly like an out-of-bounds `Uint8Array` write. -/
def stripAlphaStep (rgba : List Byte) (k : Nat) (rgb : List Byte) : List Byte :=
  ((rgb.set (3 * k) (readByte rgba (4 * k))).set (3 * k + 1)
      (readByte rgba (4 * k + 1))).set (3 * k + 2) (readByte rgba (4 * k + 2))

/-- Number of iterations of `for (let i = 0; i < rgba.length; i += 4)`:
the count of multiples of 4 below `len`. -/
def numIters (len : Nat) : Nat := (len + 3) / 4

/-- Stage E of `runInference` (RGBA to RGB): allocate
`rgb = new Uint8Array(320 * 320 * 3)` (zero-initialised) and run the
copy loop over the decoded buffer. -/
def stripAlpha (rgba : List Byte) : List Byte :=
  (List.range (numIters rgba.length)).foldl
    (fun rgb k => stripAlphaStep rgba k rgb) (List.replicate CHW 0)

/-- One labelled detection as emitted by the post-processing loop:
the display label and the raw confidence score. -/
structure LabeledDetection where
  label : String
  score : ℚ
  deriving DecidableEq, Repr

/-- The `COCO_LABELS` table from `runInference`: a map from class
index to display string, defined only at the seven listed indices. -/
def COCO_LABELS (k : ℤ) : Option String :=
  if k = 0 then some "person"
  else if k = 1 then some "bicycle"
  else if k = 2 then some "car"
  else if k = 3 then some "motorcycle"
  else if k = 5 then some "bus"
  else if k = 7 then some "truck"
  else if k = 9 then some "traffic light"
  else none

/-- Label selection `COCO_LABELS[classId] || synthetic`: a table hit
gives the table entry (every entry is a non-empty, hence truthy, string);
a miss gives the synthetic label built from the class index.  A read of
`classes[i]` past the end of the array is `undefined`, so
`Number(classes[i])` is NaN and the property lookup misses, giving the
label "Class NaN". -/
def jsLabel (c : Option ℤ) : String :=
  match c with
  | some k => (COCO_LABELS k).getD ("Class " ++ toString k)
  | none => "Class NaN"

/-- One iteration of the detection loop at slot `i`:
`const score = Number(scores[i]); if (score > 0.4) ...` with the
threshold generalised to `t`.  A slot past the end of `scores` reads
`undefined`, `Number(undefined)` is NaN, and `NaN > t` is false, so the
slot emits nothing. -/
def emitSlot (classes : List ℤ) (scores : List ℚ) (t : ℚ) (i : Nat) :
    Option LabeledDetection :=
  match scores.get? i with
  | some s => if t < s then some ⟨jsLabel (classes.get? i), s⟩ else none
  | none => none

/-- The post-processing stage: iterate slots `0, ..., K-1` in order and
collect the emitted detections.  In the source `K` is the literal 25. -/
def postProcess (K : Nat) (classes : List ℤ) (scores : List ℚ) (t : ℚ) :
    List LabeledDetection :=
  (List.range K).filterMap (emitSlot classes scores t)

/-- The fixed detection-slot count of the source: `for (let i = 0; i < 25; i++)`. -/
def DETECTION_SLOTS : Nat := 25

/-- The fixed confidence threshold of the source: the literal `0.4`. -/
def CONF_THRESHOLD : ℚ := 2 / 5

/-- Post-processing exactly as wired in `runInference`: 25 slots,
threshold 0.4. -/
def runPostProcess (classes : List ℤ) (scores : List ℚ) : List LabeledDetection :=
  postProcess DETECTION_SLOTS classes scores CONF_THRESHOLD

/-- The slot indices that emit a detection, in ascending slot order. -/
def keptSlots (K : Nat) (classes : List ℤ) (scores : List ℚ) (t : ℚ) : List Nat :=
  (List.range K).filter (fun i => (emitSlot classes scores t i).isSome)

/-- The rounding performed by `x.toFixed(0)`: the integer nearest to
`x`, ties toward the larger integer. -/
def jsToFixed0 (x : ℚ) : ℤ := ⌊x + 1 / 2⌋

/-- The log line emitted for a passing detection:
`FOUND: label (pct%)` with the score rendered as a rounded percentage. -/
def foundLine (d : LabeledDetection) : String :=
  "✅ FOUND: " ++ d.label ++ " (" ++ toString (jsToFixed0 (d.score * 100)) ++ "%)"

/-- The log line emitted when the detection count is zero. -/
def noDetectionsMsg : String := "No objects detected > 40%"

/-- The log line emitted by the catch-all handler of `runInference`. -/
def inferenceErrorLog (e : String) : String := "Inference Error: " ++ e

/-- Effect of the post-processing loop on the log list: each passing
slot prepends its FOUND line, and afterwards, when the detection count
is zero, the distinct no-detections line is prepended
(`if (count === 0) addLog("No objects detected > 40%")`). -/
def postStage (now : String) (classes : List ℤ) (scores : List ℚ)
    (logs : List String) : List String :=
  let logs1 := (List.range DETECTION_SLOTS).foldl
    (fun acc i =>
      match emitSlot classes scores CONF_THRESHOLD i with
      | some d => addLog now (foundLine d) acc
      | none => acc) logs
  if runPostProcess classes scores = [] then addLog now noDetectionsMsg logs1
  else logs1

/-- Opaque handle to a successfully loaded model of the external
inference library (`TensorflowModel`).  The React state `model` holds
`none` until `setModel(m)` runs, which happens only after
`loadTensorflowModel` succeeds; so `model = none` exactly when the model
state is not "loaded". -/
structure TFModel where
  handle : Nat
  deriving DecidableEq

/-- Observable outcome of an invocation of the pipeline entry point:
the resulting log list, the names of the external inference-library
calls that were issued, and whether the run proceeded past the guard. -/
structure PickResult where
  logs : List String
  inferenceLibraryCalls : List String
  started : Bool
  deriving DecidableEq

/-- The guard at the head of `pickAndDetect`:
`if (!model) { addLog("Wait for model to load."); return; }`.
With the model absent the call logs the precondition message and
returns at once, issuing no external inference-library call; otherwise
the remainder of the function body (image picking, resizing, inference —
all external input and output) runs, abstracted here as `rest`. -/
def pickAndDetect (now : String) (model : Option TFModel) (logs : List String)
    (rest : TFModel → PickResult) : PickResult :=
  match model with
  | none =>
    { logs := addLog now "Wait for model to load." logs
      inferenceLibraryCalls := []
      started := false }
  | some m => rest m

/-- The guard at the head of `runInference`: `if (!model) return;` —
a silent early return before the external library is touched. -/
def runInferenceEntry (model : Option TFModel) (logs : List String)
    (rest : TFModel → PickResult) : PickResult :=
  match model with
  | none => { logs := logs, inferenceLibraryCalls := [], started := false }
  | some m => rest m

/-! ### Characterisation of the channel-reduction loop -/

theorem length_stripAlphaStep (rgba : List Byte) (k : Nat) (rgb : List Byte) :
    (stripAlphaStep rgba k rgb).length = rgb.length := by
  simp [stripAlphaStep]

theorem length_foldl_strip (rgba : List Byte) (l : List Nat) (rgb : List Byte) :
    (l.foldl (fun a k => stripAlphaStep rgba k a) rgb).length = rgb.length := by
  induction l generalizing rgb with
  | nil => rfl
  | cons k l ih =>
    rw [List.foldl_cons, ih, length_stripAlphaStep]

theorem stripAlpha_length (rgba : List Byte) : (stripAlpha rgba).length = CHW := by
  rw [stripAlpha, length_foldl_strip, List.length_replicate]

theorem getElem?_foldl_strip (rgba : List Byte) (m : Nat) (j : Nat) (hj : j < CHW) :
    ((List.range m).foldl (fun a k => stripAlphaStep rgba k a)
        (List.replicate CHW (0 : Byte)))[j]? =
      some (if j / 3 < m then readByte rgba (4 * (j / 3) + j % 3) else 0) := by
  induction m with
  | zero =>
    simp only [List.range_zero, List.foldl_nil, Nat.not_lt_zero, if_false]
    exact List.getElem?_replicate_of_lt hj
  | succ m ih =>
    rw [List.range_succ, List.foldl_append, List.foldl_cons, List.foldl_nil]
    set L := (List.range m).foldl (fun a k => stripAlphaStep rgba k a)
      (List.replicate CHW (0 : Byte)) with hL
    have hLlen : L.length = CHW := by
      rw [hL, length_foldl_strip, List.length_replicate]
    rw [stripAlphaStep]
    rcases Nat.lt_trichotomy (j / 3) m with hq | hq | hq
    · have h0 : 3 * m ≠ j := by omega
      have h1 : 3 * m + 1 ≠ j := by omega
      have h2 : 3 * m + 2 ≠ j := by omega
      rw [List.getElem?_set_ne h2, List.getElem?_set_ne h1, List.getElem?_set_ne h0, ih]
      have ha : j / 3 < m := hq
      have hb : j / 3 < m + 1 := by omega
      rw [if_pos ha, if_pos hb]
    · have hr : j % 3 < 3 := Nat.mod_lt _ (by norm_num)
      have hqr : 3 * (j / 3) + j % 3 = j := by omega
      have hcond : j / 3 < m + 1 := by omega
      rw [if_pos hcond]
      interval_cases h : j % 3
      · have hj0 : 3 * m = j := by omega
        have h1 : 3 * m + 1 ≠ j := by omega
        have h2 : 3 * m + 2 ≠ j := by omega
        rw [List.getElem?_set_ne h2, List.getElem?_set_ne h1, hj0,
          List.getElem?_set_self (by rw [hLlen]; omega)]
        rw [hq, Nat.add_zero]
      · have hj1 : 3 * m + 1 = j := by omega
        have h2 : 3 * m + 2 ≠ j := by omega
        rw [List.getElem?_set_ne h2, hj1,
          List.getElem?_set_self (by rw [List.length_set, hLlen]; omega)]
        rw [hq]
      · have hj2 : 3 * m + 2 = j := by omega
        rw [hj2, List.getElem?_set_self
          (by rw [List.length_set, List.length_set, hLlen]; omega)]
        rw [hq]
    · have h0 : 3 * m ≠ j := by omega
      have h1 : 3 * m + 1 ≠ j := by omega
      have h2 : 3 * m + 2 ≠ j := by omega
      rw [List.getElem?_set_ne h2, List.getElem?_set_ne h1, List.getElem?_set_ne h0, ih]
      have ha : ¬ j / 3 < m := by omega
      have hb : ¬ j / 3 < m + 1 := by omega
      rw [if_neg ha, if_neg hb]

theorem stripAlpha_getElem? (rgba : List Byte) (j : Nat) :
    (stripAlpha rgba)[j]? =
      if j < CHW then
        some (if 4 * (j / 3) < rgba.length then readByte rgba (4 * (j / 3) + j % 3)
          else 0)
      else none := by
  by_cases hj : j < CHW
  · rw [if_pos hj, stripAlpha, getElem?_foldl_strip rgba (numIters rgba.length) j hj]
    have hiff : j / 3 < numIters rgba.length ↔ 4 * (j / 3) < rgba.length := by
      rw [numIters]; omega
    by_cases h4 : 4 * (j / 3) < rgba.length
    · rw [if_pos (hiff.mpr h4), if_pos h4]
    · rw [if_neg (fun hc => h4 (hiff.mp hc)), if_neg h4]
  · rw [if_neg hj]
    exact List.getElem?_eq_none (by rw [stripAlpha_length]; omega)

theorem stripAlpha_getD (rgba : List Byte) (j : Nat) (hj : j < CHW) :
    (stripAlpha rgba).getD j 0 =
      if 4 * (j / 3) < rgba.length then readByte rgba (4 * (j / 3) + j % 3) else 0 := by
  rw [List.getD_eq_getElem?_getD, stripAlpha_getElem?, if_pos hj, Option.getD_some]

/-! ### Helper lemmas about the post-processing stage -/

theorem emitSlot_none_of_le (classes : List ℤ) (scores : List ℚ) (t : ℚ) (i : Nat)
    (h : scores.length ≤ i) : emitSlot classes scores t i = none := by
  rw [emitSlot, List.get?_eq_none.mpr h]

theorem filterMap_eq_filter_filterMap {α β : Type} (f : α → Option β) (l : List α) :
    l.filterMap f = (l.filter fun a => (f a).isSome).filterMap f := by
  induction l with
  | nil => rfl
  | cons a l ih =>
    cases hfa : f a with
    | none => simp [List.filterMap_cons, List.filter_cons, hfa, ih]
    | some b => simp [List.filterMap_cons, List.filter_cons, hfa, ih]

theorem postProcess_min (K : Nat) (classes : List ℤ) (scores : List ℚ) (t : ℚ) :
    postProcess K classes scores t =
      postProcess (min K scores.length) classes scores t := by
  induction K with
  | zero => rw [Nat.zero_min]
  | succ K ih =>
    by_cases hK : K + 1 ≤ scores.length
    · rw [Nat.min_eq_left hK]
    · have hlen : scores.length ≤ K := by omega
      have hstep : postProcess (K + 1) classes scores t =
          postProcess K classes scores t := by
        rw [postProcess, postProcess, List.range_succ, List.filterMap_append,
          List.filterMap_cons, emitSlot_none_of_le classes scores t K hlen,
          List.filterMap_nil, List.append_nil]
      rw [hstep, ih]
      have : min (K + 1) scores.length = min K scores.length := by omega
      rw [this]

theorem postStage_foldl_unchanged (now : String) (classes : List ℤ)
    (scores : List ℚ) (l : List Nat) (acc : List String)
    (h : ∀ i ∈ l, emitSlot classes scores CONF_THRESHOLD i = none) :
    l.foldl (fun acc i =>
      match emitSlot classes scores CONF_THRESHOLD i with
      | some d => addLog now (foundLine d) acc
      | none => acc) acc = acc := by
  induction l generalizing acc with
  | nil => rfl
  | cons i l ih =>
    rw [List.foldl_cons]
    have hi : emitSlot classes scores CONF_THRESHOLD i = none :=
      h i (List.mem_cons_self i l)
    rw [hi]
    exact ih acc (fun k hk => h k (List.mem_cons_of_mem i hk))

theorem noDetectionsMsg_ne_error (e : String) : noDetectionsMsg ≠ inferenceErrorLog e := by
  intro hcontra
  have hdata := congrArg String.data hcontra
  rw [inferenceErrorLog, String.data_append] at hdata
  have hhead := congrArg List.head? hdata
  rw [show noDetectionsMsg.data = 'N' :: "o objects detected > 40%".data from rfl,
    show ("Inference Error: ").data = 'I' :: "nference Error: ".data from rfl,
    List.cons_append, List.head?_cons, List.head?_cons] at hhead
  exact absurd (Option.some.inj hhead) (by decide)

/-! ### Claims -/

/-- C1, counterexample: the claim "for a decoded RGBA input of length 4n
the output buffer has length exactly 3n" fails on the code.  For the
four-byte input (one RGBA pixel, n = 1) the output buffer is the fixed
allocation `new Uint8Array(320 * 320 * 3)`, whose length is 307200, not
3. -/
theorem c1_counterexample :
    ¬ ((stripAlpha (List.replicate 4 (0 : Byte))).length = 3 * 1) := by
  rw [stripAlpha_length]
  decide

/-- C1 (amended): for every decoded RGBA input buffer of length 4n, the
channel-reduction output buffer has the fixed length 320*320*3; for all
i below `min n (320*320)` the output bytes at positions 3i, 3i+1, 3i+2
equal the input bytes at positions 4i, 4i+1, 4i+2; when n = 320*320 (the
size the Normalization stage guarantees) the output length is exactly
3n; and the alpha bytes (positions congruent to 3 mod 4) never influence
the output. -/
theorem c1_channel_reduction (rgba : List Byte) (n : Nat) (h : rgba.length = 4 * n) :
    (stripAlpha rgba).length = 320 * 320 * 3
    ∧ (∀ i < min n (320 * 320), ∀ c < 3,
        (stripAlpha rgba).getD (3 * i + c) 0 = rgba.getD (4 * i + c) 0)
    ∧ (n = 320 * 320 → (stripAlpha rgba).length = 3 * n)
    ∧ (∀ rgba2 : List Byte, rgba2.length = rgba.length →
        (∀ j, j % 4 ≠ 3 → rgba2.getD j 0 = rgba.getD j 0) →
        stripAlpha rgba2 = stripAlpha rgba) := by
  have hCHW : CHW = 307200 := rfl
  refine ⟨stripAlpha_length rgba, ?_, ?_, ?_⟩
  · intro i hi c hc
    have hj : 3 * i + c < CHW := by omega
    rw [stripAlpha_getD rgba (3 * i + c) hj]
    have hdiv : (3 * i + c) / 3 = i := by omega
    have hmod : (3 * i + c) % 3 = c := by omega
    rw [hdiv, hmod, h, if_pos (by omega), readByte]
  · intro hn
    rw [stripAlpha_length, hn, hCHW]
  · intro rgba2 hlen hsame
    apply List.ext_getElem?
    intro j
    rw [stripAlpha_getElem?, stripAlpha_getElem?, hlen]
    by_cases hj : j < CHW
    · rw [if_pos hj, if_pos hj]
      by_cases h4 : 4 * (j / 3) < rgba.length
      · rw [if_pos h4, if_pos h4]
        have hmod : (4 * (j / 3) + j % 3) % 4 ≠ 3 := by omega
        rw [readByte, readByte, hsame _ hmod]
      · rw [if_neg h4, if_neg h4]
    · rw [if_neg hj, if_neg hj]

/-- Witness for C1 at the concrete input `[]` with n = 0. -/
theorem c1_channel_reduction_witness :
    ([] : List Byte).length = 4 * 0
    ∧ ((stripAlpha ([] : List Byte)).length = 320 * 320 * 3
      ∧ (∀ i < min 0 (320 * 320), ∀ c < 3,
          (stripAlpha ([] : List Byte)).getD (3 * i + c) 0 =
            ([] : List Byte).getD (4 * i + c) 0)
      ∧ (0 = 320 * 320 → (stripAlpha ([] : List Byte)).length = 3 * 0)
      ∧ (∀ rgba2 : List Byte, rgba2.length = ([] : List Byte).length →
          (∀ j, j % 4 ≠ 3 → rgba2.getD j 0 = ([] : List Byte).getD j 0) →
          stripAlpha rgba2 = stripAlpha ([] : List Byte))) :=
  ⟨rfl, c1_channel_reduction [] 0 rfl⟩

/-- C2: on classes = [2, 5, 0], scores = [0.82, 0.3, 0.91] and threshold
0.4 the post-processing stage (both with the scenario slot count K = 3
and as wired in the source with its fixed 25 slots) outputs exactly
car at 0.82 then person at 0.91, in that order; and for every input the
output lists the emitting slots in ascending slot order with no
reordering by confidence. -/
theorem c2_scenario_and_slot_order :
    postProcess 3 [2, 5, 0] [41 / 50, 3 / 10, 91 / 100] (2 / 5) =
      [⟨"car", 41 / 50⟩, ⟨"person", 91 / 100⟩]
    ∧ runPostProcess [2, 5, 0] [41 / 50, 3 / 10, 91 / 100] =
      [⟨"car", 41 / 50⟩, ⟨"person", 91 / 100⟩]
    ∧ ∀ (K : Nat) (classes : List ℤ) (scores : List ℚ) (t : ℚ),
        (keptSlots K classes scores t).Pairwise (· < ·)
        ∧ postProcess K classes scores t =
            (keptSlots K classes scores t).filterMap (emitSlot classes scores t) := by
  refine ⟨?_, ?_, ?_⟩
  · norm_num [postProcess, emitSlot, jsLabel, COCO_LABELS, List.range_succ,
      List.filterMap_cons, List.get?]
  · rw [runPostProcess, postProcess_min]
    norm_num [DETECTION_SLOTS, CONF_THRESHOLD, postProcess, emitSlot, jsLabel,
      COCO_LABELS, List.range_succ, List.filterMap_cons, List.get?]
  · intro K classes scores t
    exact ⟨List.Pairwise.sublist (List.filter_sublist _) (List.pairwise_lt_range K),
      filterMap_eq_filter_filterMap _ _⟩

/-- C3: the threshold comparison is strictly greater-than.  For a slot
`i` within the iterated range whose score is exactly the threshold the
slot emits nothing; for a score strictly above the threshold the slot
emits its labelled detection and that detection appears in the stage
output. -/
theorem c3_strict_threshold (K : Nat) (classes : List ℤ) (scores : List ℚ) (t : ℚ)
    (i : Nat) (s : ℚ) (hK : i < K) (hs : scores.get? i = some s) :
    (s = t → emitSlot classes scores t i = none)
    ∧ (t < s →
        emitSlot classes scores t i = some ⟨jsLabel (classes.get? i), s⟩
        ∧ (⟨jsLabel (classes.get? i), s⟩ : LabeledDetection) ∈
            postProcess K classes scores t) := by
  constructor
  · intro hst
    simp only [emitSlot, hs]
    rw [hst, if_neg (lt_irrefl t)]
  · intro hts
    have he : emitSlot classes scores t i = some ⟨jsLabel (classes.get? i), s⟩ := by
      simp only [emitSlot, hs]
      rw [if_pos hts]
    exact ⟨he, List.mem_filterMap.mpr ⟨i, List.mem_range.mpr hK, he⟩⟩

/-- Witness for C3 at slot 0 of a one-slot input with threshold 1/3 and
score 1/2. -/
theorem c3_strict_threshold_witness :
    (0 < 1 ∧ ([(1 : ℚ) / 2] : List ℚ).get? 0 = some (1 / 2))
    ∧ (((1 : ℚ) / 2 = 1 / 3 → emitSlot [2] [1 / 2] (1 / 3) 0 = none)
      ∧ ((1 : ℚ) / 3 < 1 / 2 →
          emitSlot [2] [1 / 2] (1 / 3) 0 =
            some ⟨jsLabel (([2] : List ℤ).get? 0), 1 / 2⟩
          ∧ (⟨jsLabel (([2] : List ℤ).get? 0), 1 / 2⟩ : LabeledDetection) ∈
              postProcess 1 [2] [1 / 2] (1 / 3))) :=
  ⟨⟨Nat.one_pos, rfl⟩, c3_strict_threshold 1 [2] [1 / 2] (1 / 3) 0 (1 / 2) Nat.one_pos rfl⟩

/-- C4: a class index absent from the label table yields the synthetic
label "Class index" instead of failing. -/
theorem c4_synthetic_label (k : ℤ) (h : COCO_LABELS k = none) :
    jsLabel (some k) = "Class " ++ toString k := by
  simp only [jsLabel, h, Option.getD_none]

/-- Witness for C4 at the unmapped class index 42. -/
theorem c4_synthetic_label_witness :
    COCO_LABELS 42 = none ∧ jsLabel (some 42) = "Class 42" :=
  ⟨by decide, (c4_synthetic_label 42 (by decide)).trans (by decide)⟩

/-- C5: when no slot score exceeds the threshold the stage produces the
empty detection sequence and prepends the distinct no-detections log
line; that line differs from every inference-error log line, so the
outcome is distinguishable from a processing failure. -/
theorem c5_no_detections_outcome (now : String) (classes : List ℤ) (scores : List ℚ)
    (logs : List String)
    (h : ∀ i (s : ℚ), scores.get? i = some s → s ≤ CONF_THRESHOLD) :
    runPostProcess classes scores = []
    ∧ postStage now classes scores logs = addLog now noDetectionsMsg logs
    ∧ ∀ e : String, noDetectionsMsg ≠ inferenceErrorLog e := by
  have hnone : ∀ i, emitSlot classes scores CONF_THRESHOLD i = none := by
    intro i
    cases hgi : scores.get? i with
    | none => simp only [emitSlot, hgi]
    | some s =>
      simp only [emitSlot, hgi]
      rw [if_neg (not_lt.mpr (h i s hgi))]
  have hempty : runPostProcess classes scores = [] := by
    rw [runPostProcess, postProcess]
    exact List.filterMap_eq_nil_iff.mpr (fun a _ => hnone a)
  refine ⟨hempty, ?_, noDetectionsMsg_ne_error⟩
  rw [postStage]
  rw [postStage_foldl_unchanged now classes scores _ logs
    (fun i _ => hnone i), if_pos hempty]

/-- Witness for C5 on the empty inputs. -/
theorem c5_no_detections_outcome_witness :
    (∀ i (s : ℚ), ([] : List ℚ).get? i = some s → s ≤ CONF_THRESHOLD)
    ∧ (runPostProcess [] [] = []
      ∧ postStage "t" [] [] [] = addLog "t" noDetectionsMsg []
      ∧ ∀ e : String, noDetectionsMsg ≠ inferenceErrorLog e) :=
  ⟨(fun _ _ hs => nomatch hs),
    c5_no_detections_outcome "t" [] [] [] (fun _ _ hs => nomatch hs)⟩

/-- C6: invoking the pipeline entry point while the model is not loaded
(the `model` state still holds nothing) logs the precondition message
"Wait for model to load." and returns at once: no external
inference-library call is issued and the run does not start.  The inner
inference stage likewise returns before touching the library when the
model is absent. -/
theorem c6_unloaded_model_rejected (now : String) (model : Option TFModel)
    (logs : List String) (rest rest2 : TFModel → PickResult) (h : model = none) :
    (pickAndDetect now model logs rest).logs =
        addLog now "Wait for model to load." logs
    ∧ (pickAndDetect now model logs rest).inferenceLibraryCalls = []
    ∧ (pickAndDetect now model logs rest).started = false
    ∧ (runInferenceEntry model logs rest2).inferenceLibraryCalls = [] := by
  subst h
  exact ⟨rfl, rfl, rfl, rfl⟩

/-- Witness for C6 with the model state empty. -/
theorem c6_unloaded_model_rejected_witness :
    ((none : Option TFModel) = none)
    ∧ ((pickAndDetect "t" none [] (fun _ => ⟨[], [], true⟩)).logs =
        addLog "t" "Wait for model to load." []
      ∧ (pickAndDetect "t" none [] (fun _ => ⟨[], [], true⟩)).inferenceLibraryCalls = []
      ∧ (pickAndDetect "t" none [] (fun _ => ⟨[], [], true⟩)).started = false
      ∧ (runInferenceEntry none [] (fun _ => ⟨[], [], true⟩)).inferenceLibraryCalls = []) :=
  ⟨rfl, c6_unloaded_model_rejected "t" none [] (fun _ => ⟨[], [], true⟩)
    (fun _ => ⟨[], [], true⟩) rfl⟩

/-- C7: post-processing is a deterministic pure function of the class
sequence, the score sequence and the threshold: any two runs on equal
inputs produce identical ordered output. -/
theorem c7_postprocess_deterministic (K : Nat) (classes1 classes2 : List ℤ)
    (scores1 scores2 : List ℚ) (t1 t2 : ℚ)
    (hc : classes1 = classes2) (hs : scores1 = scores2) (ht : t1 = t2) :
    postProcess K classes1 scores1 t1 = postProcess K classes2 scores2 t2 := by
  subst hc
  subst hs
  subst ht
  rfl

/-- Witness for C7 on a concrete repeated run. -/
theorem c7_postprocess_deterministic_witness :
    (([2] : List ℤ) = [2] ∧ ([(1 : ℚ) / 2] : List ℚ) = [1 / 2] ∧ (2 : ℚ) / 5 = 2 / 5)
    ∧ postProcess 25 [2] [1 / 2] (2 / 5) = postProcess 25 [2] [1 / 2] (2 / 5) :=
  ⟨⟨rfl, rfl, rfl⟩,
    c7_postprocess_deterministic 25 [2] [2] [1 / 2] [1 / 2] (2 / 5) (2 / 5) rfl rfl rfl⟩

/-- C8: every log call prepends exactly one timestamped entry at the
head of the log list and preserves all previously present entries
unchanged and in order. -/
theorem c8_addLog_prepends_head (now msg : String) (prev : List String) :
    addLog now msg prev = ("[" ++ now ++ "] " ++ msg) :: prev
    ∧ (addLog now msg prev).length = prev.length + 1
    ∧ (addLog now msg prev).drop 1 = prev :=
  ⟨rfl, rfl, rfl⟩

/-- C9: the channel-reduction output is always the fixed 320*320*3 byte
allocation regardless of the decoded input's length; pixels beyond
320*320 are silently dropped (the output depends only on the first
4*320*320 input bytes); for a shorter input the unwritten tail stays
zero; and the operation is total, never failing for any input length. -/
theorem c9_fixed_allocation (rgba : List Byte) :
    (stripAlpha rgba).length = 320 * 320 * 3
    ∧ stripAlpha rgba = stripAlpha (rgba.take (4 * (320 * 320)))
    ∧ (stripAlpha rgba).drop (3 * numIters rgba.length) =
        List.replicate (320 * 320 * 3 - 3 * numIters rgba.length) (0 : Byte) := by
  have hCHW : CHW = 307200 := rfl
  refine ⟨stripAlpha_length rgba, ?_, ?_⟩
  · apply List.ext_getElem?
    intro j
    rw [stripAlpha_getElem?, stripAlpha_getElem?, List.length_take]
    by_cases hj : j < CHW
    · rw [if_pos hj, if_pos hj]
      have hidx : 4 * (j / 3) + j % 3 < 4 * (320 * 320) := by omega
      by_cases h4 : 4 * (j / 3) < rgba.length
      · rw [if_pos h4, if_pos (by omega), readByte, readByte,
          List.getD_eq_getElem?_getD, List.getD_eq_getElem?_getD,
          List.getElem?_take_of_lt hidx]
      · rw [if_neg h4, if_neg (by omega)]
    · rw [if_neg hj, if_neg hj]
  · apply List.ext_getElem?
    intro k
    rw [List.getElem?_drop, stripAlpha_getElem?, List.getElem?_replicate]
    have hN : numIters rgba.length = (rgba.length + 3) / 4 := rfl
    by_cases hk : k < 320 * 320 * 3 - 3 * numIters rgba.length
    · rw [if_pos (by omega), if_neg (by omega), if_pos hk]
    · rw [if_neg hk]
      rw [if_neg (by omega)]

/-- C10: post-processing always iterates the fixed 25 detection slots;
a slot at or past the end of the score array reads `undefined`, whose
numeric coercion NaN fails the strict threshold comparison, so the slot
emits nothing, no error is raised, and the stage output equals the
output over only the in-range slots. -/
theorem c10_fixed_slots_total (classes : List ℤ) (scores : List ℚ) (t : ℚ)
    (i : Nat) (hi : scores.length ≤ i) :
    emitSlot classes scores t i = none
    ∧ runPostProcess classes scores =
        postProcess (min DETECTION_SLOTS scores.length) classes scores CONF_THRESHOLD :=
  ⟨emitSlot_none_of_le classes scores t i hi,
    postProcess_min DETECTION_SLOTS classes scores CONF_THRESHOLD⟩

/-- Witness for C10 at slot 0 of the empty score array. -/
theorem c10_fixed_slots_total_witness :
    ([] : List ℚ).length ≤ 0
    ∧ (emitSlot [] [] 0 0 = none
      ∧ runPostProcess [] [] =
          postProcess (min DETECTION_SLOTS ([] : List ℚ).length) [] [] CONF_THRESHOLD) :=
  ⟨Nat.le_refl 0, c10_fixed_slots_total [] [] 0 0 (Nat.le_refl 0)⟩

end Vegha
